import Mathlib

/-!
Shallow embedding of the font-size search core of react-use-fittext
(the utils module: sizeFits, binarySearchFontSize, createCacheKey,
calculateSingleLineFontSize, calculateMultiLineFontSize,
calculateOptimalFontSize), together with proofs of the spec's testable
properties.

Modelling choices, kept uniform throughout:
- JS numbers are modelled as rationals.  All arithmetic in the source
  (midpoints, clamps, areas) is exact on the inputs considered here, with
  one exception noted below for division by zero.
- The DOM clone is modelled as an abstract measurement function
  candidate font size to measured scroll width/height.  The source builds
  the clone from the text element, the container width and the line mode
  (createTestClone), so the resolver takes a clone factory
  mkClone : containerWidth to LineMode to Measure; the container height is
  never given to the clone, exactly as in the source.
- Math.sqrt is abstracted as a parameter sqrtFn; theorems that depend on
  concrete square roots only sample it at perfect squares, where Math.sqrt
  is exact.
- The process-wide Map cache is passed explicitly as an association list,
  and Date.now() as an integer millisecond timestamp.  The cache key is
  modelled as a record of the five components the source joins with commas;
  every collision exhibited below is a collision of the components
  themselves, hence also of the joined string.
- The Math.random() < 0.001 trigger of cleanupCache is modelled by an
  explicit sweep flag; the sweep only deletes expired entries.
- In calculateMultiLineFontSize, when text.length = 0 the source divides by
  zero: under IEEE arithmetic (with a positive container area) the quotient
  is +infinity, the square root and the 0.8 scaling stay infinite, and
  Math.max(min, Math.min(max, inf)) collapses to max min max.  The embedding
  makes that branch explicit and total.
-/

namespace FitText

/-- Fit mode of the source: which container dimensions constrain the text. -/
inductive FitMode where
  | width
  | height
  | both
deriving DecidableEq

/-- Line mode of the source: single-line (nowrap) or multi-line text. -/
inductive LineMode where
  | single
  | multi
deriving DecidableEq

/-- Measured scroll size of the clone at some font size (interface TextSize). -/
structure TextSize where
  width : ℚ
  height : ℚ

/-- Abstract measurement: the configured off-screen clone, as a map from the
candidate font size (clone.style.fontSize) to the scroll width/height read
back from layout. -/
abbrev Measure := ℚ → TextSize

/-- Source constant MAX_ITERATIONS = 20. -/
def MAX_ITERATIONS : ℕ := 20

/-- Source constant CACHE_LIFETIME_MS = 30000. -/
def CACHE_LIFETIME_MS : ℤ := 30000

/-- Direct transcription of sizeFits: the width check is skipped in height
mode and the height check in width mode, both checks are non-strict. -/
def sizeFits (textSize : TextSize) (containerWidth containerHeight : ℚ)
    (fitMode : FitMode) : Bool :=
  let fitsWidth := fitMode == FitMode.height || decide (textSize.width ≤ containerWidth)
  let fitsHeight := fitMode == FitMode.width || decide (textSize.height ≤ containerHeight)
  fitsWidth && fitsHeight

/-- The while loop of binarySearchFontSize.  The source counts iterations up
to MAX_ITERATIONS; here the remaining iteration budget is the fuel argument.
State: low, high, bestSize, exactly as the mutable locals of the source. -/
def binarySearchGo (measure : Measure) (resolution containerWidth containerHeight : ℚ)
    (fitMode : FitMode) : ℕ → ℚ → ℚ → ℚ → ℚ
  | 0, _, _, bestSize => bestSize
  | fuel + 1, low, high, bestSize =>
    if high - low > resolution then
      let mid := (low + high) / 2
      if sizeFits (measure mid) containerWidth containerHeight fitMode then
        binarySearchGo measure resolution containerWidth containerHeight fitMode
          fuel (mid + resolution) high mid
      else
        binarySearchGo measure resolution containerWidth containerHeight fitMode
          fuel low (mid - resolution) bestSize
    else bestSize

/-- Transcription of binarySearchFontSize: bestSize starts at low, the loop
runs while iterations < MAX_ITERATIONS and high - low > resolution. -/
def binarySearchFontSize (measure : Measure) (low high resolution : ℚ)
    (containerWidth containerHeight : ℚ) (fitMode : FitMode) : ℚ :=
  binarySearchGo measure resolution containerWidth containerHeight fitMode
    MAX_ITERATIONS low high low

/-- Transcription of calculateSingleLineFontSize: probe at maxFontSize,
short-circuit on fit, otherwise binary-search the full range. -/
def calculateSingleLineFontSize (measure : Measure)
    (minFontSize maxFontSize resolution containerWidth containerHeight : ℚ)
    (fitMode : FitMode) : ℚ :=
  if sizeFits (measure maxFontSize) containerWidth containerHeight fitMode then
    maxFontSize
  else
    binarySearchFontSize measure minFontSize maxFontSize resolution
      containerWidth containerHeight fitMode

/-- The initial-guess computation of calculateMultiLineFontSize:
Math.max(minFontSize, Math.min(maxFontSize, Math.sqrt(containerArea /
estimatedCharArea) * 0.8)) with estimatedCharArea = text.length * 12.
When estimatedCharArea = 0 the source divides by zero; under IEEE arithmetic
(positive container area) the quotient is +infinity and the clamp collapses
to max minFontSize maxFontSize, which this branch makes explicit. -/
def initialGuess (sqrtFn : ℚ → ℚ) (textLength : ℕ)
    (minFontSize maxFontSize containerWidth containerHeight : ℚ) : ℚ :=
  let containerArea := containerWidth * containerHeight
  let estimatedCharArea := (textLength : ℚ) * 12
  if estimatedCharArea = 0 then
    max minFontSize maxFontSize
  else
    max minFontSize (min maxFontSize (sqrtFn (containerArea / estimatedCharArea) * (4 / 5)))

/-- Transcription of calculateMultiLineFontSize: ceiling probe, area-based
initial guess, then an upward search from the guess when the guess fits and
a downward search onto the guess otherwise, both through the shared
binarySearchFontSize primitive. -/
def calculateMultiLineFontSize (sqrtFn : ℚ → ℚ) (measure : Measure) (textLength : ℕ)
    (minFontSize maxFontSize resolution containerWidth containerHeight : ℚ)
    (fitMode : FitMode) : ℚ :=
  if sizeFits (measure maxFontSize) containerWidth containerHeight fitMode then
    maxFontSize
  else
    let guess := initialGuess sqrtFn textLength minFontSize maxFontSize
      containerWidth containerHeight
    if sizeFits (measure guess) containerWidth containerHeight fitMode then
      binarySearchFontSize measure guess maxFontSize resolution
        containerWidth containerHeight fitMode
    else
      binarySearchFontSize measure minFontSize guess resolution
        containerWidth containerHeight fitMode

/-- JS Math.round: round half toward positive infinity. -/
def jsRound (q : ℚ) : ℤ := ⌊q + 1 / 2⌋

/-- The components of the cache key string built by createCacheKey.  The
source joins them with commas; the record keeps the five components
separate, so every equality of records below is an equality of the joined
strings as well. -/
structure CacheKey where
  roundedWidth : ℤ
  roundedHeight : ℤ
  textSample : String
  fitMode : FitMode
  lineMode : LineMode
deriving DecidableEq

/-- Transcription of interface CacheEntry. -/
structure CacheEntry where
  fontSize : ℚ
  timestamp : ℤ

/-- The process-wide fontSizeCache Map, passed explicitly. -/
abbrev Cache := List (CacheKey × CacheEntry)

/-- Map.get. -/
def cacheGet (cache : Cache) (key : CacheKey) : Option CacheEntry :=
  (cache.find? (fun kv => decide (kv.1 = key))).map (fun kv => kv.2)

/-- Map.set: replace the entry under the key when present, append otherwise. -/
def cacheSet (cache : Cache) (key : CacheKey) (entry : CacheEntry) : Cache :=
  if (cache.find? (fun kv => decide (kv.1 = key))).isSome then
    cache.map (fun kv => if kv.1 = key then (key, entry) else kv)
  else
    cache ++ [(key, entry)]

/-- Transcription of createCacheKey: container dimensions are rounded, text
longer than 50 characters is sampled as its first 50 characters followed by
its length.  The bounds and the resolution of the call are not part of the
key. -/
def createCacheKey (containerWidth containerHeight : ℚ) (text : String)
    (fitMode : FitMode) (lineMode : LineMode) : CacheKey :=
  let textSample :=
    if text.length > 50 then text.take 50 ++ toString text.length else text
  ⟨jsRound containerWidth, jsRound containerHeight, textSample, fitMode, lineMode⟩

/-- The body of cleanupCache when the random trigger fires: delete every
entry older than CACHE_LIFETIME_MS. -/
def cleanupCache (cache : Cache) (now : ℤ) : Cache :=
  let expiredTime := now - CACHE_LIFETIME_MS
  cache.filter (fun kv => !decide (kv.2.timestamp < expiredTime))

/-- The non-cached tail of calculateOptimalFontSize: optional sweep, clone
construction, dispatch on line mode, defensive clamp into bounds, store. -/
def calculateAndStore (sqrtFn : ℚ → ℚ) (mkClone : ℚ → LineMode → Measure)
    (text : String) (containerWidth containerHeight : ℚ)
    (minFontSize maxFontSize resolution : ℚ) (fitMode : FitMode)
    (lineMode : LineMode) (cache : Cache) (now : ℤ) (sweep : Bool)
    (cacheKey : CacheKey) : ℚ × Cache :=
  let cache1 := if sweep then cleanupCache cache now else cache
  let measure := mkClone containerWidth lineMode
  let bestSize :=
    if lineMode == LineMode.single then
      calculateSingleLineFontSize measure minFontSize maxFontSize resolution
        containerWidth containerHeight fitMode
    else
      calculateMultiLineFontSize sqrtFn measure text.length minFontSize maxFontSize
        resolution containerWidth containerHeight fitMode
  let clampedSize := max minFontSize (min maxFontSize bestSize)
  (clampedSize, cacheSet cache1 cacheKey ⟨clampedSize, now⟩)

/-- Transcription of calculateOptimalFontSize: build the cache key, answer
from a fresh cached entry when one exists, otherwise compute, clamp, store.
Returns the font size together with the updated cache state. -/
def calculateOptimalFontSize (sqrtFn : ℚ → ℚ) (mkClone : ℚ → LineMode → Measure)
    (text : String) (containerWidth containerHeight : ℚ)
    (minFontSize maxFontSize resolution : ℚ) (fitMode : FitMode)
    (lineMode : LineMode) (cache : Cache) (now : ℤ) (sweep : Bool) : ℚ × Cache :=
  let cacheKey := createCacheKey containerWidth containerHeight text fitMode lineMode
  match cacheGet cache cacheKey with
  | some cached =>
    if now - cached.timestamp < CACHE_LIFETIME_MS then
      (cached.fontSize, cache)
    else
      calculateAndStore sqrtFn mkClone text containerWidth containerHeight
        minFontSize maxFontSize resolution fitMode lineMode cache now sweep cacheKey
  | none =>
    calculateAndStore sqrtFn mkClone text containerWidth containerHeight
      minFontSize maxFontSize resolution fitMode lineMode cache now sweep cacheKey

/-- Number of measurement probes performed by the binary-search loop, with
the same control flow as binarySearchGo: one probe per iteration. -/
def binarySearchProbes (measure : Measure) (resolution containerWidth containerHeight : ℚ)
    (fitMode : FitMode) : ℕ → ℚ → ℚ → ℕ
  | 0, _, _ => 0
  | fuel + 1, low, high =>
    if high - low > resolution then
      let mid := (low + high) / 2
      if sizeFits (measure mid) containerWidth containerHeight fitMode then
        1 + binarySearchProbes measure resolution containerWidth containerHeight fitMode
          fuel (mid + resolution) high
      else
        1 + binarySearchProbes measure resolution containerWidth containerHeight fitMode
          fuel low (mid - resolution)
    else 0

/-- Probes of calculateSingleLineFontSize: the ceiling probe plus the loop. -/
def singleLineProbes (measure : Measure)
    (minFontSize maxFontSize resolution containerWidth containerHeight : ℚ)
    (fitMode : FitMode) : ℕ :=
  if sizeFits (measure maxFontSize) containerWidth containerHeight fitMode then 1
  else
    1 + binarySearchProbes measure resolution containerWidth containerHeight fitMode
      MAX_ITERATIONS minFontSize maxFontSize

/-- Probes of calculateMultiLineFontSize: the ceiling probe, then on a miss
the guess probe plus the loop over the chosen sub-range. -/
def multiLineProbes (sqrtFn : ℚ → ℚ) (measure : Measure) (textLength : ℕ)
    (minFontSize maxFontSize resolution containerWidth containerHeight : ℚ)
    (fitMode : FitMode) : ℕ :=
  if sizeFits (measure maxFontSize) containerWidth containerHeight fitMode then 1
  else
    let guess := initialGuess sqrtFn textLength minFontSize maxFontSize
      containerWidth containerHeight
    if sizeFits (measure guess) containerWidth containerHeight fitMode then
      1 + (1 + binarySearchProbes measure resolution containerWidth containerHeight fitMode
        MAX_ITERATIONS guess maxFontSize)
    else
      1 + (1 + binarySearchProbes measure resolution containerWidth containerHeight fitMode
        MAX_ITERATIONS minFontSize guess)

/-- Probes of a full calculateOptimalFontSize call: zero on a fresh cache
hit, otherwise the probes of the dispatched search. -/
def calculateOptimalProbes (sqrtFn : ℚ → ℚ) (mkClone : ℚ → LineMode → Measure)
    (text : String) (containerWidth containerHeight : ℚ)
    (minFontSize maxFontSize resolution : ℚ) (fitMode : FitMode)
    (lineMode : LineMode) (cache : Cache) (now : ℤ) : ℕ :=
  let cacheKey := createCacheKey containerWidth containerHeight text fitMode lineMode
  let freshHit :=
    match cacheGet cache cacheKey with
    | some cached => decide (now - cached.timestamp < CACHE_LIFETIME_MS)
    | none => false
  if freshHit then 0
  else
    let measure := mkClone containerWidth lineMode
    if lineMode == LineMode.single then
      singleLineProbes measure minFontSize maxFontSize resolution
        containerWidth containerHeight fitMode
    else
      multiLineProbes sqrtFn measure text.length minFontSize maxFontSize resolution
        containerWidth containerHeight fitMode

/-- Floor-based integer square root on rationals.  It agrees with JS
Math.sqrt on every perfect square, which is the only place the concrete
theorems below sample the square-root parameter. -/
def isqrtQ (q : ℚ) : ℚ := ((Nat.sqrt ⌊q⌋.toNat : ℕ) : ℚ)

/-- Concrete text of three characters, used by concrete instances below. -/
def textAbc : String := "abc"

/-- Concrete one-character text. -/
def textT : String := "t"

/-- The empty text. -/
def emptyText : String := ""

/-- A 51-character text: fifty A characters then B. -/
def longTextA : String := "AAAAAAAAAAAAAAAAAAAAAAAAAAAAAAAAAAAAAAAAAAAAAAAAAAB"

/-- A 51-character text: fifty A characters then C.  It differs from
longTextA only in the 51st character. -/
def longTextB : String := "AAAAAAAAAAAAAAAAAAAAAAAAAAAAAAAAAAAAAAAAAAAAAAAAAAC"

section Lemmas

variable (measure : Measure) (resolution containerWidth containerHeight : ℚ) (fitMode : FitMode)

theorem sizeFits_width (ts : TextSize) (cw ch : ℚ) :
    sizeFits ts cw ch FitMode.width = decide (ts.width ≤ cw) :=
  Bool.and_true _

theorem sizeFits_height (ts : TextSize) (cw ch : ℚ) :
    sizeFits ts cw ch FitMode.height = decide (ts.height ≤ ch) :=
  Bool.true_and _

theorem sizeFits_both (ts : TextSize) (cw ch : ℚ) :
    sizeFits ts cw ch FitMode.both = (decide (ts.width ≤ cw) && decide (ts.height ≤ ch)) :=
  rfl

/-- A smaller measured box fits whenever a bigger one does. -/
theorem sizeFits_of_le {ts ts' : TextSize} {cw ch : ℚ} {fm : FitMode}
    (hW : ts'.width ≤ ts.width) (hH : ts'.height ≤ ts.height)
    (h : sizeFits ts cw ch fm = true) : sizeFits ts' cw ch fm = true := by
  cases fm <;>
    simp only [sizeFits_width, sizeFits_height, sizeFits_both, Bool.and_eq_true,
      decide_eq_true_eq] at h ⊢
  · exact le_trans hW h
  · exact le_trans hH h
  · exact ⟨le_trans hW h.1, le_trans hH h.2⟩

/-- Growing the container and shrinking the measured box preserves a fit. -/
theorem sizeFits_of_dom {tsA tsB : TextSize} {cwA chA cwB chB : ℚ} {fm : FitMode}
    (hcw : cwB ≤ cwA) (hch : chB ≤ chA)
    (hW : tsA.width ≤ tsB.width) (hH : tsA.height ≤ tsB.height)
    (h : sizeFits tsB cwB chB fm = true) : sizeFits tsA cwA chA fm = true := by
  cases fm <;>
    simp only [sizeFits_width, sizeFits_height, sizeFits_both, Bool.and_eq_true,
      decide_eq_true_eq] at h ⊢
  · exact le_trans hW (le_trans h hcw)
  · exact le_trans hH (le_trans h hch)
  · exact ⟨le_trans hW (le_trans h.1 hcw), le_trans hH (le_trans h.2 hch)⟩

theorem binarySearchGo_zero (low high best : ℚ) :
    binarySearchGo measure resolution containerWidth containerHeight fitMode 0 low high best
      = best := rfl

theorem binarySearchGo_succ (fuel : ℕ) (low high best : ℚ) :
    binarySearchGo measure resolution containerWidth containerHeight fitMode (fuel + 1)
        low high best =
      if high - low > resolution then
        if sizeFits (measure ((low + high) / 2)) containerWidth containerHeight fitMode then
          binarySearchGo measure resolution containerWidth containerHeight fitMode fuel
            ((low + high) / 2 + resolution) high ((low + high) / 2)
        else
          binarySearchGo measure resolution containerWidth containerHeight fitMode fuel
            low ((low + high) / 2 - resolution) best
      else best := rfl

/-- The loop result never exceeds the larger of the running best and high. -/
theorem binarySearchGo_le_max (hres : 0 ≤ resolution) :
    ∀ fuel low high best : _,
      binarySearchGo measure resolution containerWidth containerHeight fitMode fuel
        low high best ≤ max best high := by
  intro fuel
  induction fuel with
  | zero => intro low high best; exact le_max_left _ _
  | succ n ih =>
    intro low high best
    rw [binarySearchGo_succ]
    by_cases hcond : high - low > resolution
    · have hmid : (low + high) / 2 ≤ high := by nlinarith [hcond]
      simp only [hcond, if_true]
      by_cases hfit :
          sizeFits (measure ((low + high) / 2)) containerWidth containerHeight fitMode = true
      · simp only [hfit, if_true]
        refine le_trans (ih _ _ _) (le_trans (max_le hmid le_rfl) (le_max_right _ _))
      · simp only [hfit, if_false]
        exact le_trans (ih _ _ _)
          (max_le_max le_rfl (by linarith))
    · simp only [hcond, if_false]
      exact le_max_left _ _

/-- The running best only grows, so the result dominates it. -/
theorem le_binarySearchGo (hres : 0 ≤ resolution) :
    ∀ fuel low high best : _, best ≤ low →
      best ≤ binarySearchGo measure resolution containerWidth containerHeight fitMode fuel
        low high best := by
  intro fuel
  induction fuel with
  | zero => intro low high best _; exact le_rfl
  | succ n ih =>
    intro low high best hbl
    rw [binarySearchGo_succ]
    by_cases hcond : high - low > resolution
    · have hlm : low ≤ (low + high) / 2 := by nlinarith [hcond]
      simp only [hcond, if_true]
      by_cases hfit :
          sizeFits (measure ((low + high) / 2)) containerWidth containerHeight fitMode = true
      · simp only [hfit, if_true]
        exact le_trans (le_trans hbl hlm) (ih _ _ _ (by linarith))
      · simp only [hfit, if_false]
        exact ih _ _ _ hbl
    · simp only [hcond, if_false]
      exact le_rfl

/-- When nothing at or above low0 fits, the loop returns its running best
unchanged: every probed midpoint lies at or above low and fails. -/
theorem binarySearchGo_of_none_fit (hres : 0 ≤ resolution) (low0 : ℚ)
    (hnone : ∀ f, low0 ≤ f →
      sizeFits (measure f) containerWidth containerHeight fitMode = false) :
    ∀ fuel low high best : _, low0 ≤ low →
      binarySearchGo measure resolution containerWidth containerHeight fitMode fuel
        low high best = best := by
  intro fuel
  induction fuel with
  | zero => intro low high best _; rfl
  | succ n ih =>
    intro low high best hl
    rw [binarySearchGo_succ]
    by_cases hcond : high - low > resolution
    · have hlm : low ≤ (low + high) / 2 := by nlinarith [hcond]
      have hfail := hnone ((low + high) / 2) (le_trans hl hlm)
      simp only [hcond, if_true, hfail, Bool.false_eq_true, if_false]
      exact ih _ _ _ hl
    · simp only [hcond, if_false]

/-- The result is the initial best or some probed size that fits. -/
theorem binarySearchGo_eq_or_fits :
    ∀ fuel low high best : _,
      binarySearchGo measure resolution containerWidth containerHeight fitMode fuel
        low high best = best ∨
      sizeFits
        (measure (binarySearchGo measure resolution containerWidth containerHeight fitMode fuel
          low high best))
        containerWidth containerHeight fitMode = true := by
  intro fuel
  induction fuel with
  | zero => intro low high best; exact Or.inl rfl
  | succ n ih =>
    intro low high best
    rw [binarySearchGo_succ]
    by_cases hcond : high - low > resolution
    · simp only [hcond, if_true]
      by_cases hfit :
          sizeFits (measure ((low + high) / 2)) containerWidth containerHeight fitMode = true
      · simp only [hfit, if_true]
        rcases ih ((low + high) / 2 + resolution) high ((low + high) / 2) with heq | hf
        · exact Or.inr (by rw [heq]; exact hfit)
        · exact Or.inr hf
      · simp only [hfit, if_false]
        exact ih _ _ _
    · exact Or.inl (by simp only [hcond, if_false])

/-- Two-run monotonicity of the loop: when every size that fits the B
configuration also fits the A configuration, the B result cannot exceed the
A result.  The runs stay in lockstep until a probe fits only on A; from
there the B run is trapped below that midpoint while the A run never drops
below it. -/
theorem binarySearchGo_mono (measA measB : Measure) (res cwA chA cwB chB : ℚ)
    (fm : FitMode) (hres : 0 ≤ res)
    (himp : ∀ f, sizeFits (measB f) cwB chB fm = true → sizeFits (measA f) cwA chA fm = true) :
    ∀ fuel low high best : _, best ≤ low →
      binarySearchGo measB res cwB chB fm fuel low high best ≤
        binarySearchGo measA res cwA chA fm fuel low high best := by
  intro fuel
  induction fuel with
  | zero => intro low high best _; exact le_rfl
  | succ n ih =>
    intro low high best hbl
    rw [binarySearchGo_succ, binarySearchGo_succ]
    by_cases hcond : high - low > res
    · have hlm : low ≤ (low + high) / 2 := by nlinarith [hcond]
      simp only [hcond, if_true]
      by_cases hfitB : sizeFits (measB ((low + high) / 2)) cwB chB fm = true
      · have hfitA := himp _ hfitB
        simp only [hfitB, hfitA, if_true]
        exact ih _ _ _ (by linarith)
      · simp only [hfitB, if_false]
        by_cases hfitA : sizeFits (measA ((low + high) / 2)) cwA chA fm = true
        · simp only [hfitA, if_true]
          have hB := binarySearchGo_le_max measB res cwB chB fm hres n
            low ((low + high) / 2 - res) best
          have hA := le_binarySearchGo measA res cwA chA fm hres n
            ((low + high) / 2 + res) high ((low + high) / 2) (by linarith)
          refine le_trans hB (le_trans (max_le ?_ ?_) hA)
          · linarith
          · linarith
        · simp only [hfitA, if_false]
          exact ih _ _ _ hbl
    · simp only [hcond, if_false]
      exact le_rfl

/-- In width mode the container height is never consulted. -/
theorem binarySearchGo_width_any_height (measure : Measure) (res cw ch1 ch2 : ℚ) :
    ∀ fuel low high best : _,
      binarySearchGo measure res cw ch1 FitMode.width fuel low high best =
        binarySearchGo measure res cw ch2 FitMode.width fuel low high best := by
  intro fuel
  induction fuel with
  | zero => intro low high best; rfl
  | succ n ih =>
    intro low high best
    rw [binarySearchGo_succ, binarySearchGo_succ]
    by_cases hcond : high - low > res
    · simp only [hcond, if_true, sizeFits_width]
      by_cases hfit : decide ((measure ((low + high) / 2)).width ≤ cw) = true
      · simp only [hfit, if_true]; exact ih _ _ _
      · simp only [hfit, if_false]; exact ih _ _ _
    · simp only [hcond, if_false]

/-- In height mode the container width is never consulted by the fit test. -/
theorem binarySearchGo_height_any_width (measure : Measure) (res cw1 cw2 ch : ℚ) :
    ∀ fuel low high best : _,
      binarySearchGo measure res cw1 ch FitMode.height fuel low high best =
        binarySearchGo measure res cw2 ch FitMode.height fuel low high best := by
  intro fuel
  induction fuel with
  | zero => intro low high best; rfl
  | succ n ih =>
    intro low high best
    rw [binarySearchGo_succ, binarySearchGo_succ]
    by_cases hcond : high - low > res
    · simp only [hcond, if_true, sizeFits_height]
      by_cases hfit : decide ((measure ((low + high) / 2)).height ≤ ch) = true
      · simp only [hfit, if_true]; exact ih _ _ _
      · simp only [hfit, if_false]; exact ih _ _ _
    · simp only [hcond, if_false]

/-- Two-run monotonicity of the single-line search. -/
theorem calculateSingleLineFontSize_mono (measA measB : Measure)
    (minF maxF res cwA chA cwB chB : ℚ) (fm : FitMode)
    (hres : 0 ≤ res) (hmm : minF ≤ maxF)
    (himp : ∀ f, sizeFits (measB f) cwB chB fm = true → sizeFits (measA f) cwA chA fm = true) :
    calculateSingleLineFontSize measB minF maxF res cwB chB fm ≤
      calculateSingleLineFontSize measA minF maxF res cwA chA fm := by
  unfold calculateSingleLineFontSize
  by_cases hfitB : sizeFits (measB maxF) cwB chB fm = true
  · simp only [hfitB, himp _ hfitB, if_true]
    exact le_rfl
  · simp only [hfitB, if_false]
    by_cases hfitA : sizeFits (measA maxF) cwA chA fm = true
    · simp only [hfitA, if_true]
      unfold binarySearchFontSize
      refine le_trans (binarySearchGo_le_max measB res cwB chB fm hres _ _ _ _) ?_
      exact max_le hmm le_rfl
    · simp only [hfitA, if_false]
      unfold binarySearchFontSize
      exact binarySearchGo_mono measA measB res cwA chA cwB chB fm hres himp _ _ _ _ le_rfl

/-- The guess never drops below the floor bound. -/
theorem initialGuess_ge_min (sqrtFn : ℚ → ℚ) (textLength : ℕ)
    (minF maxF cw ch : ℚ) :
    minF ≤ initialGuess sqrtFn textLength minF maxF cw ch := by
  unfold initialGuess
  by_cases h : ((textLength : ℚ) * 12) = 0
  · simp only [h, if_true]; exact le_max_left _ _
  · simp only [h, if_false]; exact le_max_left _ _

theorem cacheGet_nil (key : CacheKey) : cacheGet [] key = none := rfl

theorem cacheGet_singleton (key : CacheKey) (e : CacheEntry) :
    cacheGet [(key, e)] key = some e := by
  simp [cacheGet, List.find?]

/-- On a cache miss the resolver runs the full compute-clamp-store path. -/
theorem calculateOptimalFontSize_of_miss
    {sqrtFn : ℚ → ℚ} {mkClone : ℚ → LineMode → Measure} {text : String}
    {cw ch minF maxF res : ℚ} {fm : FitMode} {lm : LineMode}
    {cache : Cache} {now : ℤ} {sweep : Bool}
    (hmiss : cacheGet cache (createCacheKey cw ch text fm lm) = none) :
    calculateOptimalFontSize sqrtFn mkClone text cw ch minF maxF res fm lm cache now sweep =
      calculateAndStore sqrtFn mkClone text cw ch minF maxF res fm lm cache now sweep
        (createCacheKey cw ch text fm lm) := by
  simp only [calculateOptimalFontSize, hmiss]

/-- On a fresh cache hit the resolver returns the stored size unchanged. -/
theorem calculateOptimalFontSize_of_hit
    {sqrtFn : ℚ → ℚ} {mkClone : ℚ → LineMode → Measure} {text : String}
    {cw ch minF maxF res : ℚ} {fm : FitMode} {lm : LineMode}
    {cache : Cache} {now : ℤ} {sweep : Bool} {e : CacheEntry}
    (hhit : cacheGet cache (createCacheKey cw ch text fm lm) = some e)
    (hfresh : now - e.timestamp < CACHE_LIFETIME_MS) :
    calculateOptimalFontSize sqrtFn mkClone text cw ch minF maxF res fm lm cache now sweep =
      (e.fontSize, cache) := by
  simp only [calculateOptimalFontSize, hhit, hfresh, if_true]

/-- First component of the compute-clamp-store path. -/
theorem calculateAndStore_fst
    (sqrtFn : ℚ → ℚ) (mkClone : ℚ → LineMode → Measure) (text : String)
    (cw ch minF maxF res : ℚ) (fm : FitMode) (lm : LineMode)
    (cache : Cache) (now : ℤ) (sweep : Bool) (key : CacheKey) :
    (calculateAndStore sqrtFn mkClone text cw ch minF maxF res fm lm cache now sweep key).1 =
      max minF (min maxF
        (if lm == LineMode.single then
          calculateSingleLineFontSize (mkClone cw lm) minF maxF res cw ch fm
        else
          calculateMultiLineFontSize sqrtFn (mkClone cw lm) text.length minF maxF res
            cw ch fm)) := by
  simp only [calculateAndStore]

/-- Second component of the compute-clamp-store path from an empty cache:
a single entry under the computed key, stamped with the call time. -/
theorem calculateAndStore_nil_snd
    (sqrtFn : ℚ → ℚ) (mkClone : ℚ → LineMode → Measure) (text : String)
    (cw ch minF maxF res : ℚ) (fm : FitMode) (lm : LineMode)
    (now : ℤ) (sweep : Bool) (key : CacheKey) :
    (calculateAndStore sqrtFn mkClone text cw ch minF maxF res fm lm [] now sweep key).2 =
      [(key,
        ⟨(calculateAndStore sqrtFn mkClone text cw ch minF maxF res fm lm [] now sweep key).1,
         now⟩)] := by
  cases sweep <;> simp [calculateAndStore, cleanupCache, cacheSet, List.find?]

/-- The loop performs at most one probe per unit of iteration budget. -/
theorem binarySearchProbes_le_fuel (measure : Measure) (res cw ch : ℚ) (fm : FitMode) :
    ∀ fuel low high : _, binarySearchProbes measure res cw ch fm fuel low high ≤ fuel := by
  intro fuel
  induction fuel with
  | zero => intro low high; exact le_rfl
  | succ n ih =>
    intro low high
    simp only [binarySearchProbes]
    split
    · split
      · have := ih ((low + high) / 2 + res) high
        omega
      · have := ih low ((low + high) / 2 - res)
        omega
    · omega

/-- Single-line search in width mode ignores the container height. -/
theorem calculateSingleLineFontSize_width_any_height (measure : Measure)
    (minF maxF res cw ch1 ch2 : ℚ) :
    calculateSingleLineFontSize measure minF maxF res cw ch1 FitMode.width =
      calculateSingleLineFontSize measure minF maxF res cw ch2 FitMode.width := by
  unfold calculateSingleLineFontSize binarySearchFontSize
  rw [sizeFits_width (measure maxF) cw ch1, sizeFits_width (measure maxF) cw ch2,
    binarySearchGo_width_any_height measure res cw ch1 ch2 MAX_ITERATIONS minF maxF minF]

/-- Single-line search in height mode ignores the container width in its
fit checks. -/
theorem calculateSingleLineFontSize_height_any_width (measure : Measure)
    (minF maxF res cw1 cw2 ch : ℚ) :
    calculateSingleLineFontSize measure minF maxF res cw1 ch FitMode.height =
      calculateSingleLineFontSize measure minF maxF res cw2 ch FitMode.height := by
  unfold calculateSingleLineFontSize binarySearchFontSize
  rw [sizeFits_height (measure maxF) cw1 ch, sizeFits_height (measure maxF) cw2 ch,
    binarySearchGo_height_any_width measure res cw1 cw2 ch MAX_ITERATIONS minF maxF minF]

end Lemmas

section Claims

/-- C1 counterexample: a first call with bounds between 10 and 100 caches 100
when the text fits at the ceiling; a second call with the same container,
text, fit mode and line mode but bounds between 5 and 8 is answered from the
cache, because the key ignores the bounds, and returns 100, which lies
outside the second call's bounds. -/
theorem c1_cached_result_escapes_bounds :
    (calculateOptimalFontSize (fun _ => 0) (fun _ _ _ => ⟨0, 0⟩) textT 100 100 5 8 (1 / 2)
        FitMode.both LineMode.single
        (calculateOptimalFontSize (fun _ => 0) (fun _ _ _ => ⟨0, 0⟩) textT 100 100 10 100 (1 / 2)
          FitMode.both LineMode.single [] 0 false).2 1000 false).1 = 100 ∧
    ¬((calculateOptimalFontSize (fun _ => 0) (fun _ _ _ => ⟨0, 0⟩) textT 100 100 5 8 (1 / 2)
        FitMode.both LineMode.single
        (calculateOptimalFontSize (fun _ => 0) (fun _ _ _ => ⟨0, 0⟩) textT 100 100 10 100 (1 / 2)
          FitMode.both LineMode.single [] 0 false).2 1000 false).1 ≤ 8) := by
  have h : (calculateOptimalFontSize (fun _ => 0) (fun _ _ _ => ⟨0, 0⟩) textT 100 100 5 8 (1 / 2)
      FitMode.both LineMode.single
      (calculateOptimalFontSize (fun _ => 0) (fun _ _ _ => ⟨0, 0⟩) textT 100 100 10 100 (1 / 2)
        FitMode.both LineMode.single [] 0 false).2 1000 false).1 = 100 := by
    with_unfolding_all rfl
  rw [h]
  norm_num

/-- C1 (amended): any call that misses the cache returns a size clamped into
the call's own bounds; min is below max by hypothesis. -/
theorem c1_bounds_invariant_on_miss
    {sqrtFn : ℚ → ℚ} {mkClone : ℚ → LineMode → Measure} {text : String}
    {cw ch minF maxF res : ℚ} {fm : FitMode} {lm : LineMode}
    {cache : Cache} {now : ℤ} {sweep : Bool}
    (hmm : minF ≤ maxF)
    (hmiss : cacheGet cache (createCacheKey cw ch text fm lm) = none) :
    minF ≤ (calculateOptimalFontSize sqrtFn mkClone text cw ch minF maxF res fm lm
        cache now sweep).1 ∧
    (calculateOptimalFontSize sqrtFn mkClone text cw ch minF maxF res fm lm
        cache now sweep).1 ≤ maxF := by
  rw [calculateOptimalFontSize_of_miss hmiss, calculateAndStore_fst]
  exact ⟨le_max_left _ _, max_le hmm (min_le_left _ _)⟩

/-- Witness for the amended C1 at concrete inputs. -/
theorem c1_bounds_invariant_on_miss_witness :
    ((10 : ℚ) ≤ 100 ∧
      cacheGet [] (createCacheKey 100 100 textT FitMode.both LineMode.single) = none) ∧
    (10 ≤ (calculateOptimalFontSize (fun _ => 0) (fun _ _ _ => ⟨0, 0⟩) textT 100 100 10 100
        (1 / 2) FitMode.both LineMode.single [] 0 false).1 ∧
     (calculateOptimalFontSize (fun _ => 0) (fun _ _ _ => ⟨0, 0⟩) textT 100 100 10 100
        (1 / 2) FitMode.both LineMode.single [] 0 false).1 ≤ 100) :=
  ⟨⟨by norm_num, rfl⟩, c1_bounds_invariant_on_miss (by norm_num) rfl⟩

/-- C4: on a cache miss where the text measured at maxFontSize fits the
container under the given fit axis, both line modes return exactly
maxFontSize, for any resolution, and the single probe at the ceiling is the
only measurement performed (no binary search runs). -/
theorem c4_ceiling_short_circuit
    {sqrtFn : ℚ → ℚ} {mkClone : ℚ → LineMode → Measure} {text : String}
    {cw ch minF maxF res : ℚ} {fm : FitMode} {lm : LineMode}
    {cache : Cache} {now : ℤ} {sweep : Bool}
    (hmm : minF ≤ maxF)
    (hmiss : cacheGet cache (createCacheKey cw ch text fm lm) = none)
    (hfit : sizeFits (mkClone cw lm maxF) cw ch fm = true) :
    (calculateOptimalFontSize sqrtFn mkClone text cw ch minF maxF res fm lm
        cache now sweep).1 = maxF ∧
    calculateOptimalProbes sqrtFn mkClone text cw ch minF maxF res fm lm cache now = 1 := by
  constructor
  · rw [calculateOptimalFontSize_of_miss hmiss, calculateAndStore_fst]
    have h1 : calculateSingleLineFontSize (mkClone cw lm) minF maxF res cw ch fm = maxF := by
      unfold calculateSingleLineFontSize
      simp only [hfit, if_true]
    have h2 : calculateMultiLineFontSize sqrtFn (mkClone cw lm) text.length minF maxF res
        cw ch fm = maxF := by
      unfold calculateMultiLineFontSize
      simp only [hfit, if_true]
    cases lm <;> simp [h1, h2, min_self, max_eq_right hmm]
  · simp only [calculateOptimalProbes, hmiss]
    cases lm <;> simp [singleLineProbes, multiLineProbes, hfit]

/-- Witness for C4 at concrete inputs: a constant zero-size measurement fits
the ceiling, so the resolver returns the ceiling in one probe. -/
theorem c4_ceiling_short_circuit_witness :
    ((10 : ℚ) ≤ 40 ∧
      cacheGet [] (createCacheKey 50 50 textT FitMode.both LineMode.multi) = none ∧
      sizeFits ((fun _ _ _ => (⟨0, 0⟩ : TextSize)) (50 : ℚ) LineMode.multi (40 : ℚ))
        50 50 FitMode.both = true) ∧
    ((calculateOptimalFontSize (fun _ => 0) (fun _ _ _ => ⟨0, 0⟩) textT 50 50 10 40 1
        FitMode.both LineMode.multi [] 0 false).1 = 40 ∧
      calculateOptimalProbes (fun _ => 0) (fun _ _ _ => ⟨0, 0⟩) textT 50 50 10 40 1
        FitMode.both LineMode.multi [] 0 = 1) :=
  ⟨⟨by norm_num, rfl, by with_unfolding_all rfl⟩,
    c4_ceiling_short_circuit (by norm_num) rfl (by with_unfolding_all rfl)⟩

/-- C5: on a cache miss, when measurement is monotone non-decreasing in font
size and the text does not fit even at minFontSize, every probe fails, the
running best never moves off the floor, and the resolver returns exactly
minFontSize. -/
theorem c5_floor_fallback
    {sqrtFn : ℚ → ℚ} {mkClone : ℚ → LineMode → Measure} {text : String}
    {cw ch minF maxF res : ℚ} {fm : FitMode} {lm : LineMode}
    {cache : Cache} {now : ℤ} {sweep : Bool}
    (hmm : minF ≤ maxF) (hres : 0 ≤ res)
    (hmiss : cacheGet cache (createCacheKey cw ch text fm lm) = none)
    (hmonoW : ∀ a b : ℚ, a ≤ b → (mkClone cw lm a).width ≤ (mkClone cw lm b).width)
    (hmonoH : ∀ a b : ℚ, a ≤ b → (mkClone cw lm a).height ≤ (mkClone cw lm b).height)
    (hfail : sizeFits (mkClone cw lm minF) cw ch fm = false) :
    (calculateOptimalFontSize sqrtFn mkClone text cw ch minF maxF res fm lm
        cache now sweep).1 = minF := by
  have hnone : ∀ f, minF ≤ f → sizeFits (mkClone cw lm f) cw ch fm = false := by
    intro f hf
    cases hb : sizeFits (mkClone cw lm f) cw ch fm
    · rfl
    · exact absurd (sizeFits_of_le (hmonoW _ _ hf) (hmonoH _ _ hf) hb) (by simp [hfail])
  have hsingle : calculateSingleLineFontSize (mkClone cw lm) minF maxF res cw ch fm
      = minF := by
    unfold calculateSingleLineFontSize binarySearchFontSize
    simp only [hnone maxF hmm, Bool.false_eq_true, if_false]
    exact binarySearchGo_of_none_fit (mkClone cw lm) res cw ch fm hres minF hnone
      MAX_ITERATIONS minF maxF minF le_rfl
  have hmulti : calculateMultiLineFontSize sqrtFn (mkClone cw lm) text.length minF maxF res
      cw ch fm = minF := by
    unfold calculateMultiLineFontSize binarySearchFontSize
    simp only [hnone maxF hmm, Bool.false_eq_true, if_false,
      hnone _ (initialGuess_ge_min sqrtFn text.length minF maxF cw ch)]
    exact binarySearchGo_of_none_fit (mkClone cw lm) res cw ch fm hres minF hnone
      MAX_ITERATIONS minF (initialGuess sqrtFn text.length minF maxF cw ch) minF le_rfl
  rw [calculateOptimalFontSize_of_miss hmiss, calculateAndStore_fst]
  cases lm <;> simp [hsingle, hmulti, min_eq_right hmm]

/-- Witness for C5 at concrete inputs: the identity-like measurement is
monotone and already overflows a 5 by 5 container at the floor size 10. -/
theorem c5_floor_fallback_witness :
    ((10 : ℚ) ≤ 12 ∧ (0 : ℚ) ≤ 1 / 2 ∧
      cacheGet [] (createCacheKey 5 5 textT FitMode.both LineMode.single) = none ∧
      sizeFits ((fun _ _ f => (⟨f, f⟩ : TextSize)) (5 : ℚ) LineMode.single (10 : ℚ))
        5 5 FitMode.both = false) ∧
    (calculateOptimalFontSize (fun _ => 0) (fun _ _ f => ⟨f, f⟩) textT 5 5 10 12 (1 / 2)
        FitMode.both LineMode.single [] 0 false).1 = 10 :=
  ⟨⟨by norm_num, by norm_num, rfl, by with_unfolding_all rfl⟩,
    c5_floor_fallback (by norm_num) (by norm_num) rfl
      (fun a b h => h) (fun a b h => h) (by with_unfolding_all rfl)⟩

/-- C9: the binary-search loop performs at most MAX_ITERATIONS = 20 probes
regardless of the bounds width or the resolution, and a full resolver call
performs at most 22 probes: one ceiling probe, at most one multi-line guess
probe, and at most 20 loop probes. -/
theorem c9_bounded_probes (sqrtFn : ℚ → ℚ) (mkClone : ℚ → LineMode → Measure)
    (text : String) (cw ch minF maxF res : ℚ) (fm : FitMode) (lm : LineMode)
    (cache : Cache) (now : ℤ) :
    MAX_ITERATIONS = 20 ∧
    (∀ low high : ℚ,
      binarySearchProbes (mkClone cw lm) res cw ch fm MAX_ITERATIONS low high ≤ 20) ∧
    calculateOptimalProbes sqrtFn mkClone text cw ch minF maxF res fm lm cache now ≤ 22 := by
  have hb : ∀ low high : ℚ,
      binarySearchProbes (mkClone cw lm) res cw ch fm MAX_ITERATIONS low high ≤ 20 :=
    fun low high => binarySearchProbes_le_fuel (mkClone cw lm) res cw ch fm
      MAX_ITERATIONS low high
  refine ⟨rfl, hb, ?_⟩
  have hs : singleLineProbes (mkClone cw lm) minF maxF res cw ch fm ≤ 21 := by
    simp only [singleLineProbes]
    split
    · omega
    · have := hb minF maxF
      omega
  have hm : multiLineProbes sqrtFn (mkClone cw lm) text.length minF maxF res cw ch fm
      ≤ 22 := by
    simp only [multiLineProbes]
    split
    · omega
    · split
      · have := hb (initialGuess sqrtFn text.length minF maxF cw ch) maxF
        omega
      · have := hb minF (initialGuess sqrtFn text.length minF maxF cw ch)
        omega
  simp only [calculateOptimalProbes]
  split
  · omega
  · split
    · omega
    · omega

/-- C10: for a multi-line cache-miss call on empty text whose ceiling probe
fails, the estimated character area is the zero divisor text.length * 12 = 0;
the embedding of the IEEE behaviour (quotient +infinity, clamp to the
ceiling) makes the guess exactly maxFontSize, and the call still returns a
value within bounds. -/
theorem c10_empty_text_zero_divisor
    {sqrtFn : ℚ → ℚ} {mkClone : ℚ → LineMode → Measure}
    {cw ch minF maxF res : ℚ} {fm : FitMode}
    {cache : Cache} {now : ℤ} {sweep : Bool}
    (hmm : minF ≤ maxF) (harea : 0 < cw * ch)
    (hmiss : cacheGet cache (createCacheKey cw ch emptyText fm LineMode.multi) = none)
    (hceil : sizeFits (mkClone cw LineMode.multi maxF) cw ch fm = false) :
    ((emptyText.length : ℚ) * 12 = 0) ∧
    initialGuess sqrtFn emptyText.length minF maxF cw ch = maxF ∧
    (minF ≤ (calculateOptimalFontSize sqrtFn mkClone emptyText cw ch minF maxF res fm
        LineMode.multi cache now sweep).1 ∧
      (calculateOptimalFontSize sqrtFn mkClone emptyText cw ch minF maxF res fm
        LineMode.multi cache now sweep).1 ≤ maxF) := by
  refine ⟨by simp [emptyText], ?_, ?_, ?_⟩
  · unfold initialGuess
    simp [emptyText, max_eq_right hmm]
  · rw [calculateOptimalFontSize_of_miss hmiss, calculateAndStore_fst]
    exact le_max_left _ _
  · rw [calculateOptimalFontSize_of_miss hmiss, calculateAndStore_fst]
    exact max_le hmm (min_le_left _ _)

/-- Witness for C10 at concrete inputs: empty text over a 5 by 5 container
with bounds 1 to 10; the ceiling probe overflows and the resolver lands at
11/4, inside the bounds. -/
theorem c10_empty_text_zero_divisor_witness :
    ((1 : ℚ) ≤ 10 ∧ (0 : ℚ) < 5 * 5 ∧
      cacheGet [] (createCacheKey 5 5 emptyText FitMode.both LineMode.multi) = none ∧
      sizeFits ((fun _ _ f => (⟨f, f⟩ : TextSize)) (5 : ℚ) LineMode.multi (10 : ℚ))
        5 5 FitMode.both = false) ∧
    (((emptyText.length : ℚ) * 12 = 0) ∧
      initialGuess (fun _ => 0) emptyText.length 1 10 5 5 = 10 ∧
      (1 ≤ (calculateOptimalFontSize (fun _ => 0) (fun _ _ f => ⟨f, f⟩) emptyText 5 5 1 10 1
          FitMode.both LineMode.multi [] 0 false).1 ∧
        (calculateOptimalFontSize (fun _ => 0) (fun _ _ f => ⟨f, f⟩) emptyText 5 5 1 10 1
          FitMode.both LineMode.multi [] 0 false).1 ≤ 10)) :=
  ⟨⟨by norm_num, by norm_num, rfl, by with_unfolding_all rfl⟩,
    c10_empty_text_zero_divisor (by norm_num) (by norm_num) rfl
      (by with_unfolding_all rfl)⟩

/-- C2 counterexample: with bounds 0 to 100, resolution 1 and a fit
threshold at width 5269/100 = 52.69, the search returns 1651/32 = 51.59375,
yet 52.69 itself fits, so the distance to the largest fitting size exceeds
the resolution: the claim that the result is within resolution of the true
largest fitting size is false. -/
theorem c2_gap_exceeds_resolution :
    binarySearchFontSize (fun f => ⟨f, 0⟩) 0 100 1 (5269 / 100) 0 FitMode.width
        = 1651 / 32 ∧
    sizeFits ((fun f => (⟨f, 0⟩ : TextSize)) ((5269 : ℚ) / 100)) (5269 / 100) 0
        FitMode.width = true ∧
    (1651 : ℚ) / 32 + 1 < 5269 / 100 :=
  ⟨by with_unfolding_all rfl, by with_unfolding_all rfl, by norm_num⟩

/-- C2 (amended): each iteration with budget left and a range wider than the
resolution probes the exact midpoint, on a fit records it as best and moves
low past it by the resolution, otherwise pulls high below it by the
resolution; the cap is MAX_ITERATIONS = 20; the function returns the last
recorded best, that is, its initial low or a probed size that fits.  The
distance of the result from the largest fitting size is not bounded by the
resolution (see the counterexample); only the step granularity is. -/
theorem c2_loop_mechanics (measure : Measure) (res cw ch : ℚ) (fm : FitMode)
    (fuel : ℕ) (low high best : ℚ) (hstep : high - low > res) :
    (binarySearchGo measure res cw ch fm (fuel + 1) low high best =
      if sizeFits (measure ((low + high) / 2)) cw ch fm then
        binarySearchGo measure res cw ch fm fuel ((low + high) / 2 + res) high
          ((low + high) / 2)
      else
        binarySearchGo measure res cw ch fm fuel low ((low + high) / 2 - res) best) ∧
    MAX_ITERATIONS = 20 ∧
    (∀ l h : ℚ, binarySearchFontSize measure l h res cw ch fm =
      binarySearchGo measure res cw ch fm MAX_ITERATIONS l h l) ∧
    (∀ l h : ℚ, binarySearchFontSize measure l h res cw ch fm = l ∨
      sizeFits (measure (binarySearchFontSize measure l h res cw ch fm)) cw ch fm
        = true) := by
  refine ⟨?_, rfl, fun l h => rfl,
    fun l h => binarySearchGo_eq_or_fits measure res cw ch fm MAX_ITERATIONS l h l⟩
  rw [binarySearchGo_succ, if_pos hstep]

/-- Witness for the amended C2 at concrete inputs. -/
theorem c2_loop_mechanics_witness :
    ((100 : ℚ) - 0 > 1) ∧
    ((binarySearchGo (fun f => ⟨f, 0⟩) 1 52 0 FitMode.width (3 + 1) 0 100 0 =
        if sizeFits ((fun f => (⟨f, 0⟩ : TextSize)) (((0 : ℚ) + 100) / 2)) 52 0
            FitMode.width then
          binarySearchGo (fun f => ⟨f, 0⟩) 1 52 0 FitMode.width 3 ((0 + 100) / 2 + 1) 100
            ((0 + 100) / 2)
        else
          binarySearchGo (fun f => ⟨f, 0⟩) 1 52 0 FitMode.width 3 0 ((0 + 100) / 2 - 1) 0) ∧
      MAX_ITERATIONS = 20 ∧
      (∀ l h : ℚ, binarySearchFontSize (fun f => ⟨f, 0⟩) l h 1 52 0 FitMode.width =
        binarySearchGo (fun f => ⟨f, 0⟩) 1 52 0 FitMode.width MAX_ITERATIONS l h l) ∧
      (∀ l h : ℚ, binarySearchFontSize (fun f => ⟨f, 0⟩) l h 1 52 0 FitMode.width = l ∨
        sizeFits ((fun f => (⟨f, 0⟩ : TextSize))
            (binarySearchFontSize (fun f => ⟨f, 0⟩) l h 1 52 0 FitMode.width)) 52 0
          FitMode.width = true)) :=
  ⟨by norm_num,
    c2_loop_mechanics (fun f => ⟨f, 0⟩) 1 52 0 FitMode.width 3 0 100 0 (by norm_num)⟩

/-- C3: when the ceiling probe fails and the text is nonempty, the
multi-line search computes the guess as the clamp of
sqrt(containerArea / (text.length * 12)) * 0.8 into the bounds, probes it,
and dispatches to the shared binary-search primitive upward over the range
guess to max on a fit and downward over min to guess otherwise. -/
theorem c3_multiline_guess (sqrtFn : ℚ → ℚ) (measure : Measure) (textLength : ℕ)
    (minF maxF res cw ch : ℚ) (fm : FitMode)
    (hceil : sizeFits (measure maxF) cw ch fm = false)
    (hlen : textLength ≠ 0) :
    initialGuess sqrtFn textLength minF maxF cw ch =
      max minF (min maxF (sqrtFn (cw * ch / ((textLength : ℚ) * 12)) * (4 / 5))) ∧
    calculateMultiLineFontSize sqrtFn measure textLength minF maxF res cw ch fm =
      (if sizeFits (measure (initialGuess sqrtFn textLength minF maxF cw ch)) cw ch fm then
        binarySearchFontSize measure (initialGuess sqrtFn textLength minF maxF cw ch) maxF
          res cw ch fm
      else
        binarySearchFontSize measure minF (initialGuess sqrtFn textLength minF maxF cw ch)
          res cw ch fm) := by
  constructor
  · unfold initialGuess
    have h0 : ((textLength : ℚ) * 12) ≠ 0 :=
      mul_ne_zero (Nat.cast_ne_zero.mpr hlen) (by norm_num)
    rw [if_neg h0]
  · unfold calculateMultiLineFontSize
    simp only [hceil, Bool.false_eq_true, if_false]

/-- Witness for C3 at concrete inputs: three characters over a 100 by 36
container in width mode, measured at twice the font size, overflow the
ceiling 100. -/
theorem c3_multiline_guess_witness :
    (sizeFits ((fun f => (⟨2 * f, f⟩ : TextSize)) (100 : ℚ)) 100 36 FitMode.width
        = false ∧ (3 : ℕ) ≠ 0) ∧
    (initialGuess isqrtQ 3 10 100 100 36 =
        max 10 (min 100 (isqrtQ (100 * 36 / ((3 : ℚ) * 12)) * (4 / 5))) ∧
      calculateMultiLineFontSize isqrtQ (fun f => ⟨2 * f, f⟩) 3 10 100 1 100 36
          FitMode.width =
        (if sizeFits ((fun f => (⟨2 * f, f⟩ : TextSize)) (initialGuess isqrtQ 3 10 100 100 36))
            100 36 FitMode.width then
          binarySearchFontSize (fun f => ⟨2 * f, f⟩) (initialGuess isqrtQ 3 10 100 100 36)
            100 1 100 36 FitMode.width
        else
          binarySearchFontSize (fun f => ⟨2 * f, f⟩) 10 (initialGuess isqrtQ 3 10 100 100 36)
            1 100 36 FitMode.width)) :=
  ⟨⟨by with_unfolding_all rfl, by norm_num⟩,
    c3_multiline_guess isqrtQ (fun f => ⟨2 * f, f⟩) 3 10 100 1 100 36 FitMode.width
      (by with_unfolding_all rfl) (by norm_num)⟩

set_option maxRecDepth 2000 in
/-- C6 counterexample: two multi-line width-mode calls that differ only in
the container height (36 versus 144) resolve to different sizes, 197/4 and
799/16, because the initial guess multiplies container width by container
height.  The square root is sampled only at the perfect squares 100 and
400, where Math.sqrt is exact. -/
theorem c6_height_changes_width_mode_result :
    (calculateOptimalFontSize isqrtQ (fun _ _ f => ⟨2 * f, f⟩) textAbc 100 36 10 100 1
        FitMode.width LineMode.multi [] 0 false).1 = 197 / 4 ∧
    (calculateOptimalFontSize isqrtQ (fun _ _ f => ⟨2 * f, f⟩) textAbc 100 144 10 100 1
        FitMode.width LineMode.multi [] 0 false).1 = 799 / 16 ∧
    ((197 : ℚ) / 4) ≠ 799 / 16 :=
  ⟨by with_unfolding_all rfl, by with_unfolding_all rfl, by norm_num⟩

/-- C6 (amended): for single-line calls the claim holds: in width mode the
resolved size is unchanged when only the container height varies, and in
height mode it is unchanged when only the container width varies, provided
the width-constrained probe measures the same (the two calls share
measurement behaviour).  For multi-line calls the initial guess reads the
other axis and the claim fails (see the counterexample). -/
theorem c6_axis_independence_single_line
    (sqrtFn : ℚ → ℚ) (mkClone : ℚ → LineMode → Measure) (text : String)
    (cw ch ch1 ch2 cw1 cw2 minF maxF res : ℚ) (now1 now2 : ℤ) (sweep1 sweep2 : Bool)
    (hmeas : mkClone cw1 LineMode.single = mkClone cw2 LineMode.single) :
    (calculateOptimalFontSize sqrtFn mkClone text cw ch1 minF maxF res FitMode.width
        LineMode.single [] now1 sweep1).1 =
      (calculateOptimalFontSize sqrtFn mkClone text cw ch2 minF maxF res FitMode.width
        LineMode.single [] now2 sweep2).1 ∧
    (calculateOptimalFontSize sqrtFn mkClone text cw1 ch minF maxF res FitMode.height
        LineMode.single [] now1 sweep1).1 =
      (calculateOptimalFontSize sqrtFn mkClone text cw2 ch minF maxF res FitMode.height
        LineMode.single [] now2 sweep2).1 := by
  constructor
  · rw [calculateOptimalFontSize_of_miss (cacheGet_nil _),
      calculateOptimalFontSize_of_miss (cacheGet_nil _),
      calculateAndStore_fst, calculateAndStore_fst]
    simp only [show (LineMode.single == LineMode.single) = true from rfl, if_true]
    rw [calculateSingleLineFontSize_width_any_height (mkClone cw LineMode.single)
      minF maxF res cw ch1 ch2]
  · rw [calculateOptimalFontSize_of_miss (cacheGet_nil _),
      calculateOptimalFontSize_of_miss (cacheGet_nil _),
      calculateAndStore_fst, calculateAndStore_fst]
    simp only [show (LineMode.single == LineMode.single) = true from rfl, if_true]
    rw [hmeas, calculateSingleLineFontSize_height_any_width (mkClone cw2 LineMode.single)
      minF maxF res cw1 cw2 ch]

/-- Witness for the amended C6 at concrete inputs with a measurement that
ignores the clone width. -/
theorem c6_axis_independence_single_line_witness :
    ((fun (_ : ℚ) (_ : LineMode) (f : ℚ) => (⟨f, f⟩ : TextSize)) (3 : ℚ) LineMode.single =
      (fun (_ : ℚ) (_ : LineMode) (f : ℚ) => (⟨f, f⟩ : TextSize)) (4 : ℚ) LineMode.single) ∧
    ((calculateOptimalFontSize (fun _ => 0) (fun _ _ f => ⟨f, f⟩) textT 7 3 1 2 1
        FitMode.width LineMode.single [] 0 false).1 =
      (calculateOptimalFontSize (fun _ => 0) (fun _ _ f => ⟨f, f⟩) textT 7 4 1 2 1
        FitMode.width LineMode.single [] 0 false).1 ∧
    (calculateOptimalFontSize (fun _ => 0) (fun _ _ f => ⟨f, f⟩) textT 3 7 1 2 1
        FitMode.height LineMode.single [] 0 false).1 =
      (calculateOptimalFontSize (fun _ => 0) (fun _ _ f => ⟨f, f⟩) textT 4 7 1 2 1
        FitMode.height LineMode.single [] 0 false).1) :=
  ⟨rfl, c6_axis_independence_single_line (fun _ => 0) (fun _ _ f => ⟨f, f⟩) textT
    7 7 3 4 3 4 1 2 1 0 0 false false rfl⟩

/-- C7 counterexample: multi-line width-mode calls with container B = 49 by
36 dominated by container A = 81 by 36 under a measurement independent of
the container (hence monotone in container extent) resolve to 65/8 on B and
36/5 on A: shrinking the checked width increased the resolved size.  The
square root is sampled only at the perfect squares 49 and 81. -/
theorem c7_shrink_width_increases_result :
    (calculateOptimalFontSize isqrtQ (fun _ _ f => ⟨5 * f, f⟩) textAbc 49 36 5 116 5
        FitMode.width LineMode.multi [] 0 false).1 = 65 / 8 ∧
    (calculateOptimalFontSize isqrtQ (fun _ _ f => ⟨5 * f, f⟩) textAbc 81 36 5 116 5
        FitMode.width LineMode.multi [] 0 false).1 = 36 / 5 ∧
    ((49 : ℚ) ≤ 81 ∧ (36 : ℚ) ≤ 36) ∧
    ¬((65 : ℚ) / 8 ≤ 36 / 5) :=
  ⟨by with_unfolding_all rfl, by with_unfolding_all rfl, ⟨by norm_num, le_rfl⟩,
    by norm_num⟩

/-- C7 (amended): for single-line calls the claim holds: when container A
dominates container B in both axes and the measurement does not grow as the
probe's width constraint grows, every size fitting B fits A and the
resolved size on B is at most the resolved size on A.  For multi-line calls
the area-based guess breaks the lockstep of the two searches and the claim
fails (see the counterexample). -/
theorem c7_container_monotonicity_single_line
    (sqrtFn : ℚ → ℚ) (mkClone : ℚ → LineMode → Measure) (text : String)
    (cwA chA cwB chB minF maxF res : ℚ) (fm : FitMode) (now1 now2 : ℤ)
    (sweep1 sweep2 : Bool)
    (hres : 0 ≤ res) (hmm : minF ≤ maxF)
    (hcw : cwB ≤ cwA) (hch : chB ≤ chA)
    (hextW : ∀ f, (mkClone cwA LineMode.single f).width ≤
      (mkClone cwB LineMode.single f).width)
    (hextH : ∀ f, (mkClone cwA LineMode.single f).height ≤
      (mkClone cwB LineMode.single f).height) :
    (calculateOptimalFontSize sqrtFn mkClone text cwB chB minF maxF res fm
        LineMode.single [] now1 sweep1).1 ≤
      (calculateOptimalFontSize sqrtFn mkClone text cwA chA minF maxF res fm
        LineMode.single [] now2 sweep2).1 := by
  have himp : ∀ f, sizeFits (mkClone cwB LineMode.single f) cwB chB fm = true →
      sizeFits (mkClone cwA LineMode.single f) cwA chA fm = true :=
    fun f h => sizeFits_of_dom hcw hch (hextW f) (hextH f) h
  rw [calculateOptimalFontSize_of_miss (cacheGet_nil _),
    calculateOptimalFontSize_of_miss (cacheGet_nil _),
    calculateAndStore_fst, calculateAndStore_fst]
  simp only [show (LineMode.single == LineMode.single) = true from rfl, if_true]
  exact max_le_max le_rfl (min_le_min le_rfl
    (calculateSingleLineFontSize_mono (mkClone cwA LineMode.single)
      (mkClone cwB LineMode.single) minF maxF res cwA chA cwB chB fm hres hmm himp))

/-- Witness for the amended C7 at concrete inputs: container 5 by 5 inside
container 6 by 6 with a container-independent monotone measurement. -/
theorem c7_container_monotonicity_single_line_witness :
    ((0 : ℚ) ≤ 1 ∧ (1 : ℚ) ≤ 10 ∧ (5 : ℚ) ≤ 6 ∧ (5 : ℚ) ≤ 6) ∧
    (calculateOptimalFontSize (fun _ => 0) (fun _ _ f => ⟨f, f⟩) textT 5 5 1 10 1
        FitMode.both LineMode.single [] 0 false).1 ≤
      (calculateOptimalFontSize (fun _ => 0) (fun _ _ f => ⟨f, f⟩) textT 6 6 1 10 1
        FitMode.both LineMode.single [] 0 false).1 :=
  ⟨⟨by norm_num, by norm_num, by norm_num, by norm_num⟩,
    c7_container_monotonicity_single_line (fun _ => 0) (fun _ _ f => ⟨f, f⟩) textT
      6 6 5 5 1 10 1 FitMode.both 0 0 false false (by norm_num) (by norm_num)
      (by norm_num) (by norm_num) (fun f => le_rfl) (fun f => le_rfl)⟩

/-- C8: two distinct texts longer than 50 characters, of equal length and
sharing their first 50 characters, produce identical cache keys for the same
container, fit mode and line mode; a second resolve call for the other text
within the cache lifetime is answered with the first text's cached size
instead of a fresh computation. -/
theorem c8_cache_key_collision
    (sqrtFn : ℚ → ℚ) (mkClone : ℚ → LineMode → Measure) (t1 t2 : String)
    (cw ch minF maxF res : ℚ) (fm : FitMode) (lm : LineMode)
    (now1 now2 : ℤ) (sweep1 sweep2 : Bool)
    (hne : t1 ≠ t2) (hlen : t1.length = t2.length) (h50 : 50 < t1.length)
    (hpre : t1.take 50 = t2.take 50)
    (hfresh : now2 - now1 < CACHE_LIFETIME_MS) :
    createCacheKey cw ch t1 fm lm = createCacheKey cw ch t2 fm lm ∧
    (calculateOptimalFontSize sqrtFn mkClone t2 cw ch minF maxF res fm lm
        (calculateOptimalFontSize sqrtFn mkClone t1 cw ch minF maxF res fm lm
          [] now1 sweep1).2 now2 sweep2).1 =
      (calculateOptimalFontSize sqrtFn mkClone t1 cw ch minF maxF res fm lm
        [] now1 sweep1).1 := by
  have h2 : 50 < t2.length := hlen ▸ h50
  have hkey : createCacheKey cw ch t1 fm lm = createCacheKey cw ch t2 fm lm := by
    simp only [createCacheKey, if_pos h50, if_pos h2, hpre, hlen]
  refine ⟨hkey, ?_⟩
  rw [calculateOptimalFontSize_of_miss (cacheGet_nil _), calculateAndStore_nil_snd]
  have hhit : cacheGet
      [(createCacheKey cw ch t1 fm lm,
        ⟨(calculateAndStore sqrtFn mkClone t1 cw ch minF maxF res fm lm [] now1 sweep1
            (createCacheKey cw ch t1 fm lm)).1, now1⟩)]
      (createCacheKey cw ch t2 fm lm) = some
      ⟨(calculateAndStore sqrtFn mkClone t1 cw ch minF maxF res fm lm [] now1 sweep1
          (createCacheKey cw ch t1 fm lm)).1, now1⟩ := by
    rw [← hkey]
    exact cacheGet_singleton _ _
  rw [calculateOptimalFontSize_of_hit hhit hfresh]

set_option maxRecDepth 8000 in
/-- Witness for C8 on two concrete 51-character texts differing only in the
last character. -/
theorem c8_cache_key_collision_witness :
    (longTextA ≠ longTextB ∧ longTextA.length = longTextB.length ∧
      50 < longTextA.length ∧ longTextA.take 50 = longTextB.take 50 ∧
      (1000 : ℤ) - 0 < CACHE_LIFETIME_MS) ∧
    (createCacheKey 100 100 longTextA FitMode.both LineMode.single =
        createCacheKey 100 100 longTextB FitMode.both LineMode.single ∧
      (calculateOptimalFontSize (fun _ => 0) (fun _ _ _ => ⟨0, 0⟩) longTextB 100 100 10 100
          (1 / 2) FitMode.both LineMode.single
          (calculateOptimalFontSize (fun _ => 0) (fun _ _ _ => ⟨0, 0⟩) longTextA 100 100
            10 100 (1 / 2) FitMode.both LineMode.single [] 0 false).2 1000 false).1 =
        (calculateOptimalFontSize (fun _ => 0) (fun _ _ _ => ⟨0, 0⟩) longTextA 100 100
          10 100 (1 / 2) FitMode.both LineMode.single [] 0 false).1) :=
  ⟨⟨by decide, by decide, by decide, by with_unfolding_all rfl, by decide⟩,
    c8_cache_key_collision (fun _ => 0) (fun _ _ _ => ⟨0, 0⟩) longTextA longTextB
      100 100 10 100 (1 / 2) FitMode.both LineMode.single 0 1000 false false
      (by decide) (by decide) (by decide) (by with_unfolding_all rfl) (by decide)⟩

end Claims

end FitText
